import Mathlib

/-! Shallow embedding of the `neural_models` package (single-neuron dynamical
models) and proofs about it.  Each Python class's stored parameters, system
equations and `run` loop are translated into Lean definitions and the
specification's claims are settled against them.

Conventions used throughout:
* Python floats are modelled as `ℚ` where a model's arithmetic is rational
  (Rulkov map, the Izhikevich equations) and as `ℝ` where it involves
  `exp` / `log` / `tanh` (Hodgkin-Huxley, leaky integrate-and-fire, Chialvo).
* In-place mutation of a NumPy state vector is made explicit: a function that
  mutates its argument returns the new state alongside its result.
* A fallible operation (list indexing, attribute lookup, a division whose
  denominator may vanish) returns `Option` or `Except`. -/

namespace RulkovMap

/-- Parameter attributes stored by `RulkovMap.__init__`
(rulkov_map.py lines 21-26).  The integer `time` is kept separately. -/
structure Params where
  alpha : ℚ
  mu : ℚ
  sigma : ℚ
  x0 : ℚ
  y0 : ℚ
deriving DecidableEq

/-- The attribute assignments of `RulkovMap.__init__`: every field is
`kwargs.get(name, default)`.  Line 26 of rulkov_map.py reads the `x0` keyword
for `self.y0` (`self.y0 = kwargs.get("x0", 0)`), so the `y0` argument below is
never consulted. -/
def init (alpha mu sigma x0 y0 : Option ℚ) : Params :=
  { alpha := alpha.getD 6
    mu := mu.getD 0.1
    sigma := sigma.getD 0.3
    x0 := x0.getD 0
    y0 := x0.getD 0 }

/-- The methods defined on class `RulkovMap` in rulkov_map.py (the class
derives directly from `object`, which supplies no others of interest). -/
def methods : List String :=
  ["__init__", "__repr__", "tvec", "run", "plot"]

/-- Full construction: after the attribute assignments, line 27 executes
`self.check_parameters()`.  Python resolves the attribute at call time; no
method of that name is defined on the class, so the lookup raises
`AttributeError` and construction fails. -/
def construct (alpha mu sigma x0 y0 : Option ℚ) : Except String Params :=
  if "check_parameters" ∈ methods then
    Except.ok (init alpha mu sigma x0 y0)
  else
    Except.error "AttributeError"

/-- One pass of the update-loop body (rulkov_map.py lines 50-57): the next
`(x, y)` pair computed from the previous one. -/
def step (p : Params) (xy : ℚ × ℚ) : ℚ × ℚ :=
  (if xy.1 ≤ 0 then p.alpha / (1 - xy.1) + xy.2
   else if xy.1 < p.alpha + xy.2 then p.alpha + xy.2
   else -1,
   xy.2 - p.mu * (xy.1 + 1) + p.mu * p.sigma)

/-- Iterates of the update rule starting from the stored initial values. -/
def orbit (p : Params) : Nat → ℚ × ℚ
  | 0 => (p.x0, p.y0)
  | n + 1 => step p (orbit p n)

/-- `RulkovMap.run` (rulkov_map.py lines 42-57): arrays `x`, `y` of length
`time` (the shape of `tvec = np.arange(0, time, 1)`), initialized to zero;
index 0 is set to the initial values and the loop `for t in range(1, time - 1)`
fills indices `1 .. time - 2`; the final index `time - 1` keeps its `np.zeros`
initialization. -/
def run (p : Params) (time : Nat) : List (ℚ × ℚ) :=
  match time with
  | 0 => []
  | 1 => [(p.x0, p.y0)]
  | Nat.succ (Nat.succ m) => (List.range (m + 1)).map (orbit p) ++ [(0, 0)]

/-- With defaults (`time = 100`) the run list is 99 orbit entries followed by
the untouched zero entry; this helper reads any of the first 99 entries. -/
theorem get?_run_default (i : Nat) (h : i < 99) :
    (run (init none none none none none) 100).get? i =
      some (orbit (init none none none none none) i) := by
  have hr : run (init none none none none none) 100 =
      (List.range 99).map (orbit (init none none none none none)) ++ [(0, 0)] := rfl
  rw [hr, List.get?_append (by simpa using h), List.get?_map, List.get?_range h]
  rfl

end RulkovMap

/-- C10: constructing a `RulkovMap` always fails: for every choice of keyword
arguments, `__init__` unconditionally calls `self.check_parameters()`, no
method of that name exists on the class, and the lookup raises
`AttributeError`, so no instance is ever produced by the constructor. -/
theorem rulkov_construct_always_attribute_error
    (alpha mu sigma x0 y0 : Option ℚ) :
    RulkovMap.construct alpha mu sigma x0 y0 = Except.error "AttributeError" := by
  rfl

/-- C6 counterexample: the stored initial `y0` is wired to the `x0` keyword
(rulkov_map.py line 26), so constructing with `x0=5, y0=7` stores `y0 = 5`,
not `7` — the claim that the `y` initial value is taken from the `y0` keyword
is false. -/
theorem rulkov_y0_wired_to_x0_cex :
    (RulkovMap.init none none none (some 5) (some 7)).y0 = 5 ∧ (5 : ℚ) ≠ 7 :=
  ⟨rfl, by decide⟩

/-- C6 amended: with default parameters (`time = 100`, initial values 0), the
run list has 100 entries, `x[0] = y[0] = 0`, each index `1 .. 98` is the
piecewise update rule applied to the previous pair (no solver involved), the
final index `99` remains at its zero initialization instead of following the
rule, and the initial `y` is wired to the `x0` keyword. -/
theorem rulkov_default_run_spec :
    (RulkovMap.run (RulkovMap.init none none none none none) 100).length = 100 ∧
    (RulkovMap.run (RulkovMap.init none none none none none) 100).get? 0 =
      some (0, 0) ∧
    (∀ t : Fin 98,
      (RulkovMap.run (RulkovMap.init none none none none none) 100).get? (t.1 + 1) =
        some (RulkovMap.step (RulkovMap.init none none none none none)
          (RulkovMap.orbit (RulkovMap.init none none none none none) t.1))) ∧
    (RulkovMap.run (RulkovMap.init none none none none none) 100).get? 99 =
      some (0, 0) ∧
    (RulkovMap.init (some 1) (some 1) (some 1) (some 5) (some 7)).y0 = 5 := by
  refine ⟨?_, ?_, ?_, ?_, rfl⟩
  · have hr : RulkovMap.run (RulkovMap.init none none none none none) 100 =
        (List.range 99).map (RulkovMap.orbit (RulkovMap.init none none none none none)) ++
          [(0, 0)] := rfl
    rw [hr]
    simp
  · exact RulkovMap.get?_run_default 0 (by omega)
  · intro t
    have ht : t.1 + 1 < 99 := by omega
    rw [RulkovMap.get?_run_default (t.1 + 1) ht]
    rfl
  · have hr : RulkovMap.run (RulkovMap.init none none none none none) 100 =
        (List.range 99).map (RulkovMap.orbit (RulkovMap.init none none none none none)) ++
          [(0, 0)] := rfl
    rw [hr, List.get?_append_right (by simp)]
    simp

namespace Izhikevich

/-- `Izhikevich._systems_equations` (izhikevich.py lines 30-46), with the
in-place mutation of the state list `X` made explicit: when `X[0] >= 30` the
function overwrites `X[0]` with `c` and adds `d` to `X[1]` before computing
the derivative, so it returns the (possibly reset) state together with the
derivative evaluated at that state. -/
def systems_equations (a b c d : ℚ) (t : ℚ) (X : ℚ × ℚ) (current : ℚ) :
    (ℚ × ℚ) × (ℚ × ℚ) :=
  let Y := if 30 ≤ X.1 then (c, X.2 + d) else X
  (Y, (0.04 * Y.1 ^ 2 + 5 * Y.1 + 140 - Y.2 + current,
       a * (b * Y.1 - Y.2)))

/-- The trajectory unpacking done by `Izhikevich.run` (izhikevich.py lines
59-61): `self.tvec = s.t`, `self.V = s.y[0, :]`, `self.U = s.y[1, :]` — one
time point and one `(V, U)` pair per accepted solver sample, split into three
parallel sequences. -/
def collect (samples : List (ℝ × (ℝ × ℝ))) : List ℝ × List ℝ × List ℝ :=
  (samples.map Prod.fst, samples.map (fun s => s.2.1), samples.map (fun s => s.2.2))

end Izhikevich

/-- C2 counterexample: the Izhikevich system-equations function modifies the
state vector passed to it.  With the regular-spiking parameters
`(a, b, c, d) = (0.02, 0.2, -65, 8)` and current 10, evaluating at state
`(30, 0)` hands back the state `(-65, 8)`, not `(30, 0)`. -/
theorem izhikevich_mutates_state_cex :
    (Izhikevich.systems_equations 0.02 0.2 (-65) 8 0 (30, 0) 10).1 ≠ (30, 0) := by
  decide

/-- C2 amended: every embedded system-equations function is a pure function of
its three inputs, and all of them leave the state untouched except
Izhikevich's: that one returns the state unchanged exactly on the
sub-threshold region `v < 30`, and at or above threshold it overwrites the
state with `(c, u + d)` before computing the derivative from the overwritten
values. -/
theorem izhikevich_evaluate_frame (a b c d t current : ℚ) (X : ℚ × ℚ) :
    (X.1 < 30 → (Izhikevich.systems_equations a b c d t X current).1 = X) ∧
    (30 ≤ X.1 →
      (Izhikevich.systems_equations a b c d t X current).1 = (c, X.2 + d)) := by
  constructor
  · intro h
    simp [Izhikevich.systems_equations, not_le.mpr h]
  · intro h
    simp [Izhikevich.systems_equations, h]

/-- Witness for the frame theorem at the regular-spiking reset input. -/
theorem izhikevich_evaluate_frame_witness :
    (30 : ℚ) ≤ (((30 : ℚ), (0 : ℚ)) : ℚ × ℚ).1 ∧
    (Izhikevich.systems_equations 0.02 0.2 (-65) 8 0 (30, 0) 10).1 =
      (-65, (0 : ℚ) + 8) :=
  ⟨by decide,
   (izhikevich_evaluate_frame 0.02 0.2 (-65) 8 0 10 (30, 0)).2 (by decide)⟩

/-- Failure modes reachable from a model's `run` before/at the solver
handoff. -/
inductive RunError where
  | dimensionMismatch
  | indexError
deriving DecidableEq

-- Checked real division: `none` marks a division whose denominator is
-- exactly zero (where NumPy would produce a 0/0 → NaN with a warning).
open Classical in
noncomputable def safeDiv (a b : ℝ) : Option ℝ :=
  if b = 0 then none else some (a / b)

namespace HodgkinHuxley

/-- Parameter attributes stored by `HodgkinHuxley.__init__`
(hodgkin_huxley.py lines 26-36). -/
structure Params where
  C : ℝ
  I : ℝ
  VNa : ℝ
  VK : ℝ
  VL : ℝ
  gNa : ℝ
  gK : ℝ
  gL : ℝ
  dt : ℝ
  t : ℝ

/-- The documented defaults. -/
noncomputable def defaults : Params :=
  ⟨1, 1, 50, -77, -54.4, 120, 36, 0.3, 0.01, 100⟩

/-- The α_m rate term exactly as written on line 52,
`0.1*(X[0]+40) / (1 - np.exp(-(X[0]+40)/10))`, with the division checked. -/
noncomputable def alpha_m (V : ℝ) : Option ℝ :=
  safeDiv (0.1 * (V + 40)) (1 - Real.exp (-(V + 40) / 10))

/-- The α_n rate term exactly as written on line 53,
`0.01*(X[0]+55) / (1 - np.exp(-(X[0]+55)/10))`, with the division checked. -/
noncomputable def alpha_n (V : ℝ) : Option ℝ :=
  safeDiv (0.01 * (V + 55)) (1 - Real.exp (-(V + 55) / 10))

/-- `HodgkinHuxley.system_equations` (hodgkin_huxley.py lines 47-54) on a
state list `X = [V, m, n, h]`.  List indexing is fallible (`none` is Python's
`IndexError`); the float divisions never raise in NumPy, so they are embedded
as total real division. -/
noncomputable def system_equations (p : Params) (X : List ℝ) (t I : ℝ) :
    Option (List ℝ) := do
  let V ← X.get? 0
  let m ← X.get? 1
  let n ← X.get? 2
  let h ← X.get? 3
  pure [(1 / p.C) * (-p.gNa * m ^ 3 * h * (V - p.VNa) - p.gK * n ^ 4 * (V - p.VK) -
          p.gL * (V - p.VL) + I),
        0.1 * (V + 40) / (1 - Real.exp (-(V + 40) / 10)) * (1 - m) -
          4 * Real.exp (-(V + 65) / 18) * m,
        0.01 * (V + 55) / (1 - Real.exp (-(V + 55) / 10)) * (1 - n) -
          0.125 * Real.exp (-(V + 65) / 80) * n,
        0.07 * Real.exp (-(V + 65) / 20) * (1 - h) -
          1 / (1 + Real.exp (-(V + 35) / 10)) * h]

/-- `self.tvec = np.arange(0, self.t, self.dt)` (line 36): the uniform grid of
`⌈t/dt⌉` points starting at 0. -/
noncomputable def tvec (p : Params) : List ℝ :=
  (List.range ⌈p.t / p.dt⌉₊).map (fun k : ℕ => (k : ℝ) * p.dt)

/-- `HodgkinHuxley.run` (hodgkin_huxley.py lines 56-65) up to the solver
handoff.  The body performs no validation of `X0`: it resolves the current
argument and immediately calls `odeint(self.system_equations, X0, self.tvec,
(I,))`, whose first action is to evaluate the right-hand side at `(X0, t0)`.
The only failure reachable with a wrong-length state is therefore the index
error inside that first evaluation; the numerics of a successful solve are
the external solver's and the trajectory is abstracted to its time grid. -/
noncomputable def run (p : Params) (X0 : List ℝ) (Iopt : Option ℝ) :
    Except RunError (List ℝ) :=
  match system_equations p X0 0 (Iopt.getD p.I) with
  | none => Except.error RunError.indexError
  | some _ => Except.ok (tvec p)

/-- A state list shorter than the model's four dimensions makes the very first
right-hand-side evaluation fail on an index. -/
theorem hh_eval_short (p : Params) (t I : ℝ) (X : List ℝ)
    (h : X.length < 4) : system_equations p X t I = none := by
  rcases X with _ | ⟨a, _ | ⟨b, _ | ⟨c, _ | ⟨d, l⟩⟩⟩⟩
  · rfl
  · rfl
  · rfl
  · rfl
  · simp at h
    omega

end HodgkinHuxley

namespace HindmarshRose

/-- Parameter attributes stored by `HindmarshRose.__init__`
(hindmarsh_rose.py lines 26-35). -/
structure Params where
  current : ℝ
  a : ℝ
  b : ℝ
  c : ℝ
  d : ℝ
  r : ℝ
  s : ℝ
  x1 : ℝ
  dt : ℝ
  time : ℝ

/-- The documented defaults. -/
noncomputable def defaults : Params :=
  ⟨1, 0.5, 0.5, 0.5, 0.5, 1, 1, -1, 0.01, 100⟩

/-- `HindmarshRose.system_equations` (hindmarsh_rose.py lines 50-56) on a
state list `X = [x, y, z]`; indexing is fallible. -/
noncomputable def system_equations (p : Params) (X : List ℝ) (t current : ℝ) :
    Option (List ℝ) := do
  let x ← X.get? 0
  let y ← X.get? 1
  let z ← X.get? 2
  pure [y - p.a * x ^ 3 + p.b * x ^ 2 - z + current,
        p.c - p.d * x ^ 2 - y,
        p.r * (p.s * (x - p.x1) - z)]

/-- The `tvec` property (hindmarsh_rose.py lines 43-48):
`np.arange(0, self.time, self.dt)`. -/
noncomputable def tvec (p : Params) : List ℝ :=
  (List.range ⌈p.time / p.dt⌉₊).map (fun k : ℕ => (k : ℝ) * p.dt)

/-- `HindmarshRose.run` (hindmarsh_rose.py lines 58-67): resolves the current
argument (defaulting to `self.current`) and calls `odeint` with no validation
of `X0`; as for Hodgkin-Huxley, the only wrong-length failure is the index
error inside the first right-hand-side evaluation. -/
noncomputable def run (p : Params) (X0 : List ℝ) (copt : Option ℝ) :
    Except RunError (List ℝ) :=
  match system_equations p X0 0 (copt.getD p.current) with
  | none => Except.error RunError.indexError
  | some _ => Except.ok (tvec p)

/-- A state list shorter than three dimensions fails the first evaluation. -/
theorem hr_eval_short (p : Params) (t current : ℝ) (X : List ℝ)
    (h : X.length < 3) : system_equations p X t current = none := by
  rcases X with _ | ⟨a, _ | ⟨b, _ | ⟨c, l⟩⟩⟩
  · rfl
  · rfl
  · rfl
  · simp at h
    omega

end HindmarshRose

/-- C3 counterexample: `HodgkinHuxley.run` called with the wrong-length
initial state `[0]` does not fail with a dimension mismatch — the body
contains no validation at all; it reaches the solver and fails inside the
first right-hand-side evaluation with an index error instead. -/
theorem hh_run_no_dimension_check_cex :
    HodgkinHuxley.run HodgkinHuxley.defaults [0] none ≠
      Except.error RunError.dimensionMismatch := by
  have h : HodgkinHuxley.run HodgkinHuxley.defaults [0] none =
      Except.error RunError.indexError := rfl
  rw [h]
  simp

/-- C4: the α rate terms are implemented as the plain rational expressions
with no guard: at `V = -40` the α_m denominator `1 - exp(-(V+40)/10)` is
exactly zero, and likewise the α_n denominator at `V = -55`, so evaluation
there is a 0/0 division (NaN in NumPy), not the finite limiting value. -/
theorem hh_alpha_division_by_zero :
    (1 : ℝ) - Real.exp (-((-40 : ℝ) + 40) / 10) = 0 ∧
    HodgkinHuxley.alpha_m (-40) = none ∧
    HodgkinHuxley.alpha_n (-55) = none := by
  have e1 : (1 : ℝ) - Real.exp (-((-40 : ℝ) + 40) / 10) = 0 := by
    have h1 : -((-40 : ℝ) + 40) / 10 = 0 := by norm_num
    rw [h1, Real.exp_zero]
    ring
  have e2 : (1 : ℝ) - Real.exp (-((-55 : ℝ) + 55) / 10) = 0 := by
    have h2 : -((-55 : ℝ) + 55) / 10 = 0 := by norm_num
    rw [h2, Real.exp_zero]
    ring
  refine ⟨e1, ?_, ?_⟩
  · unfold HodgkinHuxley.alpha_m safeDiv
    rw [if_pos e1]
  · unfold HodgkinHuxley.alpha_n safeDiv
    rw [if_pos e2]

namespace LeakyIntegrateAndFire

/-- Parameter attributes stored by `LeakyIntegrateAndFire.__init__`
(leaky_integrate_and_fire.py lines 21-27). -/
structure Params where
  VR : ℝ
  R : ℝ
  C : ℝ
  I : ℝ
  theta : ℝ
  dt : ℝ
  t : ℝ

/-- The documented defaults. -/
noncomputable def defaults : Params :=
  ⟨-70, 100, 0.3, 0.3, -55, 0.01, 100⟩

/-- The `tau` property (lines 29-34): `R * C`. -/
noncomputable def tau (p : Params) : ℝ := p.R * p.C

/-- The closed-form charging curve evaluated once per loop iteration
(line 75): `VR + R*I*(1 - exp(-step/tau))`. -/
noncomputable def charge (p : Params) (s : ℝ) : ℝ :=
  p.VR + p.R * p.I * (1 - Real.exp (-s / tau p))

-- The `step` bookkeeping of one loop iteration (lines 76-78): `step` is
-- advanced by `dt`, and zeroed when the just-computed sample strictly
-- exceeds `theta` (the code tests `self.V[idx] > self.theta`).
open Classical in
noncomputable def nextStep (p : Params) (s : ℝ) : ℝ :=
  if p.theta < charge p s then 0 else s + p.dt

/-- The sample list produced by the loop from a given `step` value, for a
given number of remaining grid points. -/
noncomputable def samples (p : Params) : Nat → ℝ → List ℝ
  | 0, _ => []
  | n + 1, s => charge p s :: samples p n (nextStep p s)

/-- `LeakyIntegrateAndFire.run` (lines 68-78): one closed-form evaluation per
point of `tvec = np.arange(0, t, dt)` (which has `⌈t/dt⌉` points), with
`step` starting at 0.  No ODE-solver call is involved. -/
noncomputable def run (p : Params) : List ℝ :=
  samples p ⌈p.t / p.dt⌉₊ 0

/-- The `period` property (lines 43-48):
`-tau * log(1 - (theta - VR)/(R*I))`. -/
noncomputable def period (p : Params) : ℝ :=
  -tau p * Real.log (1 - (p.theta - p.VR) / (p.R * p.I))

/-- The `tvec` property (lines 36-41): `np.arange(0, t, dt)`, a grid of
`⌈t/dt⌉` points; `run` allocates `self.V = np.zeros(self.tvec.shape)` and
writes one sample per grid point. -/
noncomputable def tvec (p : Params) : List ℝ :=
  (List.range ⌈p.t / p.dt⌉₊).map (fun k : ℕ => (k : ℝ) * p.dt)

/-- The sample loop writes exactly one value per remaining grid point. -/
theorem lif_samples_length (p : Params) :
    ∀ (n : Nat) (s : ℝ), (samples p n s).length = n := by
  intro n
  induction n with
  | zero => intro s; rfl
  | succ n ih =>
    intro s
    simp only [samples, List.length_cons, ih]

/-- A freshly zeroed step gives back exactly the resting potential. -/
theorem charge_zero (p : Params) : charge p 0 = p.VR := by
  simp [charge]

/-- The charging curve is strictly increasing in the elapsed step when
`R*I > 0` and `tau > 0`. -/
theorem charge_strictMono (p : Params) (hRI : 0 < p.R * p.I)
    (hτ : 0 < tau p) {s1 s2 : ℝ} (h : s1 < s2) :
    charge p s1 < charge p s2 := by
  unfold charge
  have hexp : Real.exp (-s2 / tau p) < Real.exp (-s1 / tau p) := by
    apply Real.exp_lt_exp.mpr
    exact (div_lt_div_right hτ).mpr (neg_lt_neg h)
  have hmul := mul_lt_mul_of_pos_left (sub_lt_sub_left hexp 1) hRI
  linarith

/-- Any two consecutive samples of the loop are the charging curve at some
step value and at its successor step. -/
theorem samples_consecutive (p : Params) :
    ∀ (n : Nat) (s : ℝ) (i : Nat) (v w : ℝ),
      (samples p n s).get? i = some v → (samples p n s).get? (i + 1) = some w →
      ∃ u, v = charge p u ∧ w = charge p (nextStep p u) := by
  intro n
  induction n with
  | zero =>
    intro s i v w hv _
    simp [samples] at hv
  | succ n ih =>
    intro s i v w hv hw
    match i with
    | 0 =>
      simp only [samples, List.get?_cons_zero, Option.some.injEq] at hv
      simp only [samples, List.get?_cons_succ] at hw
      cases n with
      | zero => simp [samples] at hw
      | succ k =>
        simp only [samples, List.get?_cons_zero, Option.some.injEq] at hw
        exact ⟨s, hv.symm, hw.symm⟩
    | Nat.succ j =>
      simp only [samples, List.get?_cons_succ] at hv hw
      exact ih (nextStep p s) j v w hv hw

/-- A sample strictly exceeds the threshold exactly when its elapsed step
exceeds the closed-form period. -/
theorem charge_gt_theta_iff (p : Params) (hRI : 0 < p.R * p.I)
    (hτ : 0 < tau p) (hq : (p.theta - p.VR) / (p.R * p.I) < 1) (s : ℝ) :
    p.theta < charge p s ↔ period p < s := by
  have hcan : p.R * p.I * ((p.theta - p.VR) / (p.R * p.I)) = p.theta - p.VR :=
    mul_div_cancel₀ _ (ne_of_gt hRI)
  have h1q : 0 < 1 - (p.theta - p.VR) / (p.R * p.I) := by linarith
  have hlog : -s / tau p < Real.log (1 - (p.theta - p.VR) / (p.R * p.I)) ↔
      Real.exp (-s / tau p) < 1 - (p.theta - p.VR) / (p.R * p.I) :=
    Real.lt_log_iff_exp_lt h1q
  have hexpand : p.R * p.I * (1 - (p.theta - p.VR) / (p.R * p.I)) =
      p.R * p.I - (p.theta - p.VR) := by
    rw [mul_sub, hcan, mul_one]
  constructor
  · intro h
    have hmul : p.R * p.I * Real.exp (-s / tau p) <
        p.R * p.I * (1 - (p.theta - p.VR) / (p.R * p.I)) := by
      rw [hexpand]
      unfold charge at h
      nlinarith [h]
    have he : Real.exp (-s / tau p) < 1 - (p.theta - p.VR) / (p.R * p.I) :=
      lt_of_mul_lt_mul_left hmul (le_of_lt hRI)
    have h2 : -s < Real.log (1 - (p.theta - p.VR) / (p.R * p.I)) * tau p :=
      (div_lt_iff hτ).mp (hlog.mpr he)
    unfold period
    nlinarith [h2]
  · intro h
    have h2 : -s / tau p < Real.log (1 - (p.theta - p.VR) / (p.R * p.I)) := by
      rw [div_lt_iff hτ]
      unfold period at h
      nlinarith [h]
    have he := hlog.mp h2
    have hmul := mul_lt_mul_of_pos_left he hRI
    rw [hexpand] at hmul
    unfold charge
    nlinarith [hmul]

end LeakyIntegrateAndFire

/-- C5 amended: in every leaky integrate-and-fire run with `R*I > 0`,
`tau > 0`, `dt > 0` and `(theta - VR)/(R*I) < 1`: consecutive samples
strictly increase while at or below threshold; the sample immediately after a
sample that strictly exceeds the threshold is exactly the resting potential
`VR` (a sample exactly equal to `theta` does not trigger the reset — the code
tests `V > theta`); the trajectory is the closed-form charging recurrence
with no solver call; and a sample exceeds the threshold exactly when its
elapsed charging time exceeds the closed-form period
`-tau*log(1 - (theta - VR)/(R*I))`, so the reset happens at the first grid
point whose elapsed time passes the period. -/
theorem lif_run_spec (p : LeakyIntegrateAndFire.Params)
    (hRI : 0 < p.R * p.I) (hτ : 0 < LeakyIntegrateAndFire.tau p)
    (hdt : 0 < p.dt)
    (hq : (p.theta - p.VR) / (p.R * p.I) < 1) :
    (∀ i v w, (LeakyIntegrateAndFire.run p).get? i = some v →
      (LeakyIntegrateAndFire.run p).get? (i + 1) = some w →
      (p.theta < v → w = p.VR) ∧ (v ≤ p.theta → v < w)) ∧
    (∀ s : ℝ, p.theta < LeakyIntegrateAndFire.charge p s ↔
      LeakyIntegrateAndFire.period p < s) := by
  constructor
  · intro i v w hv hw
    obtain ⟨u, hu, hw'⟩ :=
      LeakyIntegrateAndFire.samples_consecutive p _ 0 i v w hv hw
    constructor
    · intro hth
      have hreset : LeakyIntegrateAndFire.nextStep p u = 0 := by
        unfold LeakyIntegrateAndFire.nextStep
        rw [if_pos (show p.theta < LeakyIntegrateAndFire.charge p u from hu ▸ hth)]
      rw [hw', hreset, LeakyIntegrateAndFire.charge_zero]
    · intro hle
      have hadv : LeakyIntegrateAndFire.nextStep p u = u + p.dt := by
        unfold LeakyIntegrateAndFire.nextStep
        rw [if_neg (show ¬ p.theta < LeakyIntegrateAndFire.charge p u from
          hu ▸ not_lt.mpr hle)]
      rw [hw', hadv, hu]
      exact LeakyIntegrateAndFire.charge_strictMono p hRI hτ (by linarith)
  · intro s
    exact LeakyIntegrateAndFire.charge_gt_theta_iff p hRI hτ hq s

/-- A concrete parameter set for instantiating the run-spec theorem:
`VR = 0, R = 1, C = 1, I = 1, theta = 1/2, dt = 1, t = 3`. -/
noncomputable def lifWitnessParams : LeakyIntegrateAndFire.Params :=
  ⟨0, 1, 1, 1, 1/2, 1, 3⟩

/-- Witness: the run-spec theorem applied at `lifWitnessParams`, with all four
hypotheses discharged numerically. -/
theorem lif_run_spec_witness :
    (0 < lifWitnessParams.R * lifWitnessParams.I ∧
      0 < LeakyIntegrateAndFire.tau lifWitnessParams ∧
      0 < lifWitnessParams.dt ∧
      (lifWitnessParams.theta - lifWitnessParams.VR) /
          (lifWitnessParams.R * lifWitnessParams.I) < 1) ∧
    ((∀ i v w, (LeakyIntegrateAndFire.run lifWitnessParams).get? i = some v →
        (LeakyIntegrateAndFire.run lifWitnessParams).get? (i + 1) = some w →
        (lifWitnessParams.theta < v → w = lifWitnessParams.VR) ∧
          (v ≤ lifWitnessParams.theta → v < w)) ∧
      (∀ s : ℝ, lifWitnessParams.theta < LeakyIntegrateAndFire.charge lifWitnessParams s ↔
        LeakyIntegrateAndFire.period lifWitnessParams < s)) :=
  ⟨⟨by norm_num [lifWitnessParams], by norm_num [LeakyIntegrateAndFire.tau, lifWitnessParams],
    by norm_num [lifWitnessParams], by norm_num [lifWitnessParams]⟩,
   lif_run_spec lifWitnessParams (by norm_num [lifWitnessParams])
     (by norm_num [LeakyIntegrateAndFire.tau, lifWitnessParams])
     (by norm_num [lifWitnessParams]) (by norm_num [lifWitnessParams])⟩

/-- Parameters exhibiting a sample exactly equal to the threshold:
`VR = 0, R = C = I = 1, theta = 1/2, dt = log 2, t = 3 log 2`. -/
noncomputable def lifCexParams : LeakyIntegrateAndFire.Params :=
  ⟨0, 1, 1, 1, 1/2, Real.log 2, 3 * Real.log 2⟩

/-- C5 counterexample to "meets or exceeds": with `lifCexParams` the run has
three samples `[0, 1/2, 3/4]`; the second sample equals the threshold `1/2`
exactly, yet the third sample is `3/4`, not the resting potential `0` — the
code resets only on strict exceedance (`V > theta`), so a sample that merely
meets the threshold is not followed by a reset. -/
theorem lif_threshold_equality_not_reset_cex :
    (LeakyIntegrateAndFire.run lifCexParams).get? 1 = some lifCexParams.theta ∧
    (LeakyIntegrateAndFire.run lifCexParams).get? 2 = some (3 / 4) ∧
    (3 / 4 : ℝ) ≠ lifCexParams.VR := by
  have hL : (0 : ℝ) < Real.log 2 := Real.log_pos (by norm_num)
  have hVR : lifCexParams.VR = 0 := rfl
  have hR : lifCexParams.R = 1 := rfl
  have hI : lifCexParams.I = 1 := rfl
  have hθ : lifCexParams.theta = 1 / 2 := rfl
  have hdt : lifCexParams.dt = Real.log 2 := rfl
  have ht3 : lifCexParams.t = 3 * Real.log 2 := rfl
  have hN : ⌈lifCexParams.t / lifCexParams.dt⌉₊ = 3 := by
    have hdiv : lifCexParams.t / lifCexParams.dt = (3 : ℝ) := by
      rw [ht3, hdt, mul_div_assoc, div_self (ne_of_gt hL), mul_one]
    rw [hdiv]
    norm_num
  have hτ1 : LeakyIntegrateAndFire.tau lifCexParams = 1 := by
    show (1 : ℝ) * 1 = 1
    norm_num
  have hexp1 : Real.exp (-Real.log 2) = 1 / 2 := by
    rw [Real.exp_neg, Real.exp_log (by norm_num : (0 : ℝ) < 2)]
    norm_num
  have hv0 : LeakyIntegrateAndFire.charge lifCexParams 0 = 0 := by
    rw [LeakyIntegrateAndFire.charge_zero, hVR]
  have hv1 : LeakyIntegrateAndFire.charge lifCexParams (Real.log 2) = 1 / 2 := by
    unfold LeakyIntegrateAndFire.charge
    rw [hτ1, hVR, hR, hI, div_one]
    rw [hexp1]
    norm_num
  have hv2 : LeakyIntegrateAndFire.charge lifCexParams (Real.log 2 + Real.log 2) =
      3 / 4 := by
    unfold LeakyIntegrateAndFire.charge
    rw [hτ1, hVR, hR, hI, div_one, neg_add, Real.exp_add, hexp1]
    norm_num
  have hn0 : LeakyIntegrateAndFire.nextStep lifCexParams 0 = Real.log 2 := by
    unfold LeakyIntegrateAndFire.nextStep
    rw [if_neg (by rw [hv0, hθ]; norm_num :
      ¬ lifCexParams.theta < LeakyIntegrateAndFire.charge lifCexParams 0)]
    rw [zero_add, hdt]
  have hn1 : LeakyIntegrateAndFire.nextStep lifCexParams (Real.log 2) =
      Real.log 2 + Real.log 2 := by
    unfold LeakyIntegrateAndFire.nextStep
    rw [if_neg (by rw [hv1, hθ]; norm_num :
      ¬ lifCexParams.theta < LeakyIntegrateAndFire.charge lifCexParams (Real.log 2))]
    rw [hdt]
  have hrun : LeakyIntegrateAndFire.run lifCexParams =
      [LeakyIntegrateAndFire.charge lifCexParams 0,
       LeakyIntegrateAndFire.charge lifCexParams (Real.log 2),
       LeakyIntegrateAndFire.charge lifCexParams (Real.log 2 + Real.log 2)] := by
    unfold LeakyIntegrateAndFire.run
    rw [hN]
    simp only [LeakyIntegrateAndFire.samples]
    rw [hn0, hn1]
  rw [hrun]
  refine ⟨?_, ?_, ?_⟩
  · show some (LeakyIntegrateAndFire.charge lifCexParams (Real.log 2)) =
      some lifCexParams.theta
    rw [hv1, hθ]
  · show some (LeakyIntegrateAndFire.charge lifCexParams
      (Real.log 2 + Real.log 2)) = some ((3 : ℝ) / 4)
    rw [hv2]
  · rw [hVR]
    norm_num

namespace ChialvoMap

/-- Parameter attributes stored by `ChialvoMap.__init__`
(chialvo_map.py lines 18-23). -/
structure Params where
  a : ℝ
  b : ℝ
  c : ℝ
  k : ℝ

/-- One pass of the update-loop body (chialvo_map.py lines 46-48). -/
noncomputable def step (p : Params) (xy : ℝ × ℝ) : ℝ × ℝ :=
  (xy.1 ^ 2 * Real.exp (xy.2 - xy.1) + p.k,
   p.a * xy.2 - p.b * xy.1 + p.c)

/-- Iterates of the update rule from the run's initial state. -/
noncomputable def orbit (p : Params) (X0 : ℝ × ℝ) : Nat → ℝ × ℝ
  | 0 => X0
  | n + 1 => step p (orbit p X0 n)

/-- `ChialvoMap.run` (chialvo_map.py lines 33-48): `tvec = np.arange(0, t+1)`
has `t+1` points; `x` and `y` are zero arrays of the same shape; index 0 is
set from `X0` and the loop `for t in range(0, t - 1)` fills indices
`1 .. t-1`, leaving the final index at its zero initialization.  The result
is the three parallel sequences `(tvec, x, y)`. -/
noncomputable def run (p : Params) (X0 : ℝ × ℝ) (t : Nat) :
    List ℝ × List ℝ × List ℝ :=
  let xy : List (ℝ × ℝ) :=
    match t with
    | 0 => [X0]
    | Nat.succ m => (List.range (m + 1)).map (orbit p X0) ++ [(0, 0)]
  ((List.range (t + 1)).map (fun j : ℕ => (j : ℝ)), xy.map Prod.fst, xy.map Prod.snd)

/-- The initial-state unpack at the top of `ChialvoMap.run` (chialvo_map.py
lines 44-45): `self.x[0] = X0[0]; self.y[0] = X0[1]`, executed after the zero
arrays have been allocated and stored on the instance and before any loop
iteration; a too-short `X0` raises `IndexError` right here — the
repository's own code, no solver involved. -/
def unpackX0 (X0 : List ℝ) : Except RunError (ℝ × ℝ) :=
  match X0.get? 0, X0.get? 1 with
  | some x, some y => Except.ok (x, y)
  | _, _ => Except.error RunError.indexError

/-- An initial state with fewer than two entries fails the unpack. -/
theorem chialvo_unpack_short (X0 : List ℝ) (h : X0.length < 2) :
    unpackX0 X0 = Except.error RunError.indexError := by
  rcases X0 with _ | ⟨a, _ | ⟨b, l⟩⟩
  · rfl
  · rfl
  · simp at h
    omega

end ChialvoMap

namespace MorrisLecar

/-- Parameter attributes stored by `MorrisLecar.__init__` as numbers
(morris_lecar.py lines 31-45). -/
structure Params where
  C : ℝ
  I : ℝ
  VL : ℝ
  VCa : ℝ
  VK : ℝ
  gL : ℝ
  gCa : ℝ
  gK : ℝ
  V1 : ℝ
  V2 : ℝ
  V3 : ℝ
  V4 : ℝ
  phi : ℝ
  dt : ℝ
  time : ℝ

/-- `MorrisLecar.system_equations` (morris_lecar.py lines 98-107) on a state
list `X = [V, N]`; indexing is fallible, everything else is NumPy float
arithmetic embedded as total real operations. -/
noncomputable def system_equations (p : Params) (X : List ℝ) (t I : ℝ) :
    Option (List ℝ) := do
  let V ← X.get? 0
  let N ← X.get? 1
  let Mss := (1 + Real.tanh ((V - p.V1) / p.V2)) / 2
  let Nss := (1 + Real.tanh ((V - p.V3) / p.V4)) / 2
  let tc := 1 / p.phi * Real.cosh ((V - p.V3) / (2 * p.V4))
  pure [(1 / p.C) * (I - p.gL * (V - p.VL) - p.gCa * Mss * (V - p.VCa) -
          p.gK * N * (V - p.VK)),
        (Nss - N) / tc]

/-- The `tvec` property (morris_lecar.py lines 91-96):
`np.arange(0, time, dt)`. -/
noncomputable def tvec (p : Params) : List ℝ :=
  (List.range ⌈p.time / p.dt⌉₊).map (fun k : ℕ => (k : ℝ) * p.dt)

/-- `MorrisLecar.run` (morris_lecar.py lines 109-118): resolves the current
argument (defaulting to `self.I`) and calls `odeint` with no validation of
`X0`; the only wrong-length failure is the index error inside the first
right-hand-side evaluation, exactly as for the other `odeint` models. -/
noncomputable def run (p : Params) (X0 : List ℝ) (Iopt : Option ℝ) :
    Except RunError (List ℝ) :=
  match system_equations p X0 0 (Iopt.getD p.I) with
  | none => Except.error RunError.indexError
  | some _ => Except.ok (tvec p)

/-- A state list with fewer than two entries fails the first evaluation. -/
theorem ml_eval_short (p : Params) (t I : ℝ) (X : List ℝ)
    (h : X.length < 2) : system_equations p X t I = none := by
  rcases X with _ | ⟨a, _ | ⟨b, l⟩⟩
  · rfl
  · rfl
  · simp at h
    omega

end MorrisLecar

namespace Izhikevich

/-- `_systems_equations` on the raw state list as the solver hands it over:
both branches of the function touch `X[0]` and `X[1]` (the threshold test and
reset on lines 42-44, the derivative on lines 45-46), so indexing is
fallible; the successful case is exactly `systems_equations` on the pair. -/
def systems_equations_list (a b c d : ℚ) (t : ℚ) (X : List ℚ) (current : ℚ) :
    Option ((ℚ × ℚ) × (ℚ × ℚ)) := do
  let v ← X.get? 0
  let u ← X.get? 1
  pure (systems_equations a b c d t (v, u) current)

/-- The first thing `Izhikevich.run`'s `solve_ivp` call does with `Y0`
(izhikevich.py line 58): the solver's construction evaluates the right-hand
side at `(t0, Y0)` before any stepping, and `run` itself performs no
validation of `Y0`, so a wrong-length state dies inside that first
evaluation with an `IndexError`. -/
def run_first_eval (a b c d : ℚ) (t current : ℚ) (Y0 : List ℚ) :
    Except RunError Unit :=
  match systems_equations_list a b c d 0 Y0 current with
  | none => Except.error RunError.indexError
  | some _ => Except.ok ()

/-- A state list with fewer than two entries fails the first evaluation. -/
theorem izh_list_eval_short (a b c d t current : ℚ) (X : List ℚ)
    (h : X.length < 2) : systems_equations_list a b c d t X current = none := by
  rcases X with _ | ⟨v, _ | ⟨u, l⟩⟩
  · rfl
  · rfl
  · simp at h
    omega

end Izhikevich

/-- C3 amended: no model validates the initial-state length, and no
`DimensionMismatchError` exists anywhere in the code.  For the solver-backed
models — Hodgkin-Huxley, Hindmarsh-Rose, Morris-Lecar (`odeint`) and
Izhikevich (`solve_ivp`) — a too-short initial state reaches the solver and
fails with an `IndexError` raised inside the first right-hand-side
evaluation, i.e. during integration work, not before it.  The Chialvo map
fails with an `IndexError` in the repository's own `X0[1]` unpack before its
loop, after the zero-initialized result arrays have already been stored on
the instance.  (LeakyIntegrateAndFire and RulkovMap take no initial-state
argument, and FitzHughNagumo hardcodes `X0 = [0, 0]`.) -/
theorem run_wrong_length_index_error (p : HodgkinHuxley.Params)
    (q : HindmarshRose.Params) (r : MorrisLecar.Params)
    (a b c d current : ℚ) (Iopt copt Jopt : Option ℝ)
    (X0 Y0 Z0 U0 : List ℝ) (W0 : List ℚ)
    (hX : X0.length < 4) (hY : Y0.length < 3) (hZ : Z0.length < 2)
    (hW : W0.length < 2) (hU : U0.length < 2) :
    HodgkinHuxley.run p X0 Iopt = Except.error RunError.indexError ∧
    HindmarshRose.run q Y0 copt = Except.error RunError.indexError ∧
    MorrisLecar.run r Z0 Jopt = Except.error RunError.indexError ∧
    Izhikevich.run_first_eval a b c d 0 current W0 =
      Except.error RunError.indexError ∧
    ChialvoMap.unpackX0 U0 = Except.error RunError.indexError := by
  refine ⟨?_, ?_, ?_, ?_, ?_⟩
  · unfold HodgkinHuxley.run
    rw [HodgkinHuxley.hh_eval_short p 0 (Iopt.getD p.I) X0 hX]
  · unfold HindmarshRose.run
    rw [HindmarshRose.hr_eval_short q 0 (copt.getD q.current) Y0 hY]
  · unfold MorrisLecar.run
    rw [MorrisLecar.ml_eval_short r 0 (Jopt.getD r.I) Z0 hZ]
  · unfold Izhikevich.run_first_eval
    rw [Izhikevich.izh_list_eval_short a b c d 0 current W0 hW]
  · exact ChialvoMap.chialvo_unpack_short U0 hU

/-- Witness: the wrong-length theorem applied at concrete too-short states. -/
theorem run_wrong_length_index_error_witness :
    (([(0 : ℝ)] : List ℝ).length < 4 ∧ ([(0 : ℝ)] : List ℝ).length < 3 ∧
      ([(0 : ℝ)] : List ℝ).length < 2 ∧ ([(0 : ℚ)] : List ℚ).length < 2) ∧
    (HodgkinHuxley.run HodgkinHuxley.defaults [0] none =
        Except.error RunError.indexError ∧
      HindmarshRose.run HindmarshRose.defaults [0] none =
        Except.error RunError.indexError ∧
      MorrisLecar.run ⟨20, 1, -60, 120, -84, 2, 4, 8, -1.2, 18, 12, 17.4,
          0.06, 0.01, 100⟩ [0] none = Except.error RunError.indexError ∧
      Izhikevich.run_first_eval 0.02 0.2 (-65) 8 0 10 [0] =
        Except.error RunError.indexError ∧
      ChialvoMap.unpackX0 [0] = Except.error RunError.indexError) :=
  ⟨⟨by decide, by decide, by decide, by decide⟩,
   run_wrong_length_index_error HodgkinHuxley.defaults HindmarshRose.defaults
     ⟨20, 1, -60, 120, -84, 2, 4, 8, -1.2, 18, 12, 17.4, 0.06, 0.01, 100⟩
     0.02 0.2 (-65) 8 10 none none none [0] [0] [0] [0] [0]
     (by decide) (by decide) (by decide) (by decide) (by decide)⟩

/-- C8: trajectories are length-consistent.  For the Chialvo map the time
grid and both per-variable sample lists all have `t+1` entries; the Rulkov
run yields one `(x, y)` pair per point of `np.arange(0, time, 1)`; the
leaky integrate-and-fire loop writes exactly one voltage sample per point of
its `tvec` grid (`self.V = np.zeros(self.tvec.shape)`, filled index by
index); and the Izhikevich unpacking of the solver output produces `tvec`,
`V`, `U` with one entry per accepted sample. -/
theorem trajectory_lengths_consistent (p : ChialvoMap.Params) (X0 : ℝ × ℝ)
    (t : Nat) (q : RulkovMap.Params) (time : Nat)
    (lp : LeakyIntegrateAndFire.Params)
    (samples : List (ℝ × (ℝ × ℝ))) :
    ((ChialvoMap.run p X0 t).1.length = (ChialvoMap.run p X0 t).2.1.length ∧
      (ChialvoMap.run p X0 t).1.length = (ChialvoMap.run p X0 t).2.2.length) ∧
    (RulkovMap.run q time).length = time ∧
    (LeakyIntegrateAndFire.run lp).length =
      (LeakyIntegrateAndFire.tvec lp).length ∧
    ((Izhikevich.collect samples).1.length =
        (Izhikevich.collect samples).2.1.length ∧
      (Izhikevich.collect samples).1.length =
        (Izhikevich.collect samples).2.2.length) := by
  have hch : (ChialvoMap.run p X0 t).1.length = t + 1 ∧
      (ChialvoMap.run p X0 t).2.1.length = t + 1 ∧
      (ChialvoMap.run p X0 t).2.2.length = t + 1 := by
    cases t with
    | zero =>
      refine ⟨?_, ?_, ?_⟩ <;>
        simp only [ChialvoMap.run, List.length_map, List.length_range,
          List.length_cons, List.length_nil]
    | succ m =>
      refine ⟨?_, ?_, ?_⟩ <;>
        simp only [ChialvoMap.run, List.length_map, List.length_append,
          List.length_range, List.length_cons, List.length_nil]
  refine ⟨⟨by rw [hch.1, hch.2.1], by rw [hch.1, hch.2.2]⟩, ?_, ?_, ?_, ?_⟩
  · match time with
    | 0 => rfl
    | 1 => rfl
    | Nat.succ (Nat.succ m) =>
      simp only [RulkovMap.run, List.length_append, List.length_map,
        List.length_range, List.length_cons, List.length_nil]
  · simp only [LeakyIntegrateAndFire.run, LeakyIntegrateAndFire.tvec,
      LeakyIntegrateAndFire.lif_samples_length, List.length_map,
      List.length_range]
  · simp only [Izhikevich.collect, List.length_map]
  · simp only [Izhikevich.collect, List.length_map]

/-- A Python object as far as the `isinstance(..., (int, float))` checks can
distinguish it: a number, or something else. -/
inductive PyVal where
  | num (x : ℝ)
  | obj (tag : String)

/-- The `isinstance(v, (int, float))` test. -/
def PyVal.isNumber : PyVal → Bool
  | num _ => true
  | obj _ => false

namespace MorrisLecar

/-- The attributes stored by `MorrisLecar.__init__` (morris_lecar.py lines
31-45), kept as raw Python values so the type checks are expressible. -/
structure Raw where
  C : PyVal
  I : PyVal
  VL : PyVal
  VCa : PyVal
  VK : PyVal
  gL : PyVal
  gCa : PyVal
  gK : PyVal
  V1 : PyVal
  V2 : PyVal
  V3 : PyVal
  V4 : PyVal
  phi : PyVal
  dt : PyVal
  time : PyVal

/-- `MorrisLecar.check_parameters` (lines 56-89): fifteen
`assert isinstance(..., (int, float))` checks and nothing else — no
positivity or range constraint appears anywhere. -/
def check_parameters (r : Raw) : Bool :=
  r.C.isNumber && r.I.isNumber && r.VL.isNumber && r.VCa.isNumber &&
  r.VK.isNumber && r.gL.isNumber && r.gCa.isNumber && r.gK.isNumber &&
  r.V1.isNumber && r.V2.isNumber && r.V3.isNumber && r.V4.isNumber &&
  r.phi.isNumber && r.dt.isNumber && r.time.isNumber

/-- `MorrisLecar.__init__` (lines 31-46): store the values, then run
`check_parameters`; a failing `assert` raises `AssertionError` (there is no
`InvalidParameterError` anywhere in the code). -/
def construct (r : Raw) : Except String Raw :=
  if check_parameters r then Except.ok r else Except.error "AssertionError"

end MorrisLecar

namespace HodgkinHuxley

/-- The attributes stored by `HodgkinHuxley.__init__` as raw Python values
(hodgkin_huxley.py lines 26-36). -/
structure Raw where
  C : PyVal
  I : PyVal
  VNa : PyVal
  VK : PyVal
  VL : PyVal
  gNa : PyVal
  gK : PyVal
  gL : PyVal
  dt : PyVal
  t : PyVal

/-- `HodgkinHuxley.__init__`: stores its keyword arguments with no check of
their type or sign, then executes `self.tvec = np.arange(0, self.t, self.dt)`
(line 36) — the one operation of the constructor that can fail: `np.arange`
raises `TypeError` when `t` or `dt` is not a number.  Every other attribute
is stored regardless of what it is. -/
def construct (r : Raw) : Except String Raw :=
  if r.t.isNumber && r.dt.isNumber then Except.ok r
  else Except.error "TypeError"

end HodgkinHuxley

